import Mathlib

/-!
Verification of the LinuxBoot `BlSupportDxe` driver
(`UefiPayloadPkg/BlSupportDxe/BlSupportDxe.c` and
`UefiPayloadPkg/BlSupportDxe/AArch64/BlSupport.c`).

The driver migrates EFI variables embedded in a flattened device tree into
the UEFI variable store at ExitBootServices, and (on AArch64) builds the
ARM memory-region table used to enable the MMU.

The development is a shallow embedding: property spans and C byte buffers
become `List Nat`, machine integers become `Nat` (with explicit masks where
overflow matters), fallible allocation becomes a Boolean outcome sequence,
and the UEFI variable-store collaborator (which is outside the sources
under review) is modelled from the specification's abstract get/set
contract.
-/

namespace BlSupportDxe

/-- The `U_ROOT_EFIVAR_MAGIC` string "u-root-efivar-v1"
(UefiPayloadPkg/Include/UniversalPayload/EfiVariable.h line 14),
as its list of ASCII byte values (16 bytes, no terminator). -/
def uRootEfivarMagic : List Nat :=
  [117, 45, 114, 111, 111, 116, 45, 101, 102, 105, 118, 97, 114, 45, 118, 49]

/-- `AsciiStrLen`: length of a NUL-terminated byte string (number of bytes
before the first zero byte). -/
def asciiStrLen (s : List Nat) : Nat :=
  (s.takeWhile (fun c => c != 0)).length

/-- EDK2 `AsciiStrnCmp First Second Length`: compares at most `Length`
bytes, stopping early at a NUL in the first string or at the first
difference; returns the difference of the first mismatching bytes
(0 when equal).  Bytes past the end of a list read as 0 (the terminator
of the modelled C buffer). -/
def asciiStrnCmp : List Nat → List Nat → Nat → Int
  | _, _, 0 => 0
  | a, b, n + 1 =>
    let x := a.headD 0
    let y := b.headD 0
    if x ≠ 0 ∧ x = y ∧ n ≠ 0 then asciiStrnCmp a.tail b.tail n
    else (x : Int) - (y : Int)

/-- Guarded read of byte `i` of a property span: `none` at or past the
reported property length.  The C code reads `Data[i]` unguarded; the
`getD _ 0` uses of this function mark exactly where the C code may read
one byte past the span. -/
def propByteAt (p : List Nat) (i : Nat) : Option Nat :=
  p.get? i

/-- One flattened-device-tree node, reduced to what `FdtGetProperty`
exposes: its named properties, each a raw byte span. -/
structure FdtNode where
  props : List (String × List Nat)
deriving DecidableEq

/-- `FdtGetProperty FdtBase Node Name &Len`: first property of the node
with the given name (its span; the returned `TempLen` is the span's
length). -/
def fdtGetProperty (node : FdtNode) (s : String) : Option (List Nat) :=
  (node.props.find? (fun p => p.fst == s)).map Prod.snd

/-- A device-tree blob: outcome of `FdtCheckHeader` plus the node sequence
that `FdtNextNode` iteration delivers. -/
structure Fdt where
  headerOk : Bool
  nodes : List FdtNode
deriving DecidableEq

/-- ASCII hexadecimal digit (0-9, A-F, a-f), as byte values. -/
def isHexDigitByte (c : Nat) : Bool :=
  decide ((48 ≤ c ∧ c ≤ 57) ∨ (65 ≤ c ∧ c ≤ 70) ∨ (97 ≤ c ∧ c ≤ 102))

/-- Validity of a canonical 36-character textual GUID
"XXXXXXXX-XXXX-XXXX-XXXX-XXXXXXXXXXXX", the format accepted by EDK2
`AsciiStrToGuid` (hyphens at offsets 8, 13, 18, 23; hex digits at every
other offset below 36; bytes past the end of the list read as 0 and fail
both tests). -/
def asciiGuidTextOk (s : List Nat) : Bool :=
  (List.range 36).all (fun i =>
    if i = 8 ∨ i = 13 ∨ i = 18 ∨ i = 23 then s.getD i 0 == 45
    else isHexDigitByte (s.getD i 0))

/-- Uppercase normalization of an ASCII hex digit byte. -/
def hexByteUpper (c : Nat) : Nat :=
  if 97 ≤ c ∧ c ≤ 102 then c - 32 else c

/-- EDK2 `AsciiStrToGuid`: decodes the canonical 36-character text into a
binary GUID, failing (`RETURN_UNSUPPORTED`) on any format violation.  The
binary value is abstracted as the case-normalized 36-character text, which
preserves exactly the identity semantics of the conversion. -/
def asciiStrToGuid (s : List Nat) : Option (List Nat) :=
  if asciiGuidTextOk s then some ((s.take 36).map hexByteUpper) else none

/-- The condition at BlSupportDxe.c line 166 deciding whether the GUID
property must be copied into a freshly terminated 37-byte buffer:
`TempLen < 36 || (TempLen >= 36 && GuidStr[36] != '\0')`.  The read of
`GuidStr[36]` is expressed through the guarded `propByteAt`; for a span of
reported length exactly 36 that read is out of range and yields the
default 0. -/
def guidNeedsCopy (g : List Nat) : Bool :=
  decide (g.length < 36) || (decide (36 ≤ g.length) && ((propByteAt g 36).getD 0 != 0))

/-- The GUID text handed to `AsciiStrToGuid` (BlSupportDxe.c lines
164-182): the raw span when it is already long enough and terminated at
offset 36, otherwise a 37-byte buffer holding `min TempLen 36` copied
bytes, uninitialized pool bytes (the `junk` parameter) up to offset 35,
and a terminator at offset 36. -/
def guidBufFor (g : List Nat) (junk : Nat → Nat) : List Nat :=
  if guidNeedsCopy g then
    (List.range 36).map (fun i => if i < min g.length 36 then g.getD i 0 else junk i) ++ [0]
  else g

/-- `Fdt32ToCpu` applied to the first four bytes of a property span:
big-endian (network order) 32-bit decode. -/
def fdt32ToCpu (b : List Nat) : Nat :=
  b.getD 0 0 * 2 ^ 24 + b.getD 1 0 * 2 ^ 16 + b.getD 2 0 * 2 ^ 8 + b.getD 3 0

/-- The subset of EFI_STATUS codes the modelled driver produces.  All
codes other than `success` satisfy `EFI_ERROR`. -/
inductive EfiStatus where
  | success
  | notFound
  | invalidParameter
  | outOfResources
deriving DecidableEq

/-- EFI_ERROR. -/
def efiError (s : EfiStatus) : Bool :=
  s != EfiStatus.success

/-- `CACHED_VARIABLE_DATA` (BlSupportDxe.h): one decoded variable record.
`variableName` is the CHAR16 string content (terminator omitted),
`variableGuid` the abstracted binary GUID. -/
structure CachedVariableData where
  variableName : List Nat
  variableGuid : List Nat
  attributes : Nat
  dataSize : Nat
  data : List Nat
deriving DecidableEq

/-- The four pool allocations `ParseAndCacheEfiVariableNode` can make, in
source order: the synthesized NUL-terminated name copy (`TempNameStr`),
the synthesized terminated GUID copy (`TempGuidStr`), and the two
persistent buffers (`VariableName`, `VariableData`). -/
inductive AllocTag where
  | tempName
  | tempGuid
  | varName
  | varData
deriving DecidableEq

/-- Result of one node decode: the returned EFI_STATUS, the record stored
into `*CachedVar` on success, and the pool allocations still live when the
function returns. -/
structure ParseOutcome where
  status : EfiStatus
  cached : Option CachedVariableData
  live : List AllocTag
deriving DecidableEq

/-- `ParseAndCacheEfiVariableNode` (BlSupportDxe.c lines 64-258).
`alloc k` is the outcome of the k-th `AllocatePool` call of this decode
(false = allocation failure); `junk i` is the uninitialized pool byte at
offset `i` of a fresh `TempGuidStr` buffer.  The `live` component of the
outcome records, per exit path, exactly the buffers the code has not
freed when it returns. -/
def parseAndCacheEfiVariableNode (alloc : Nat → Bool) (junk : Nat → Nat)
    (node : FdtNode) : ParseOutcome :=
  match fdtGetProperty node "magic" with
  | none => ⟨.notFound, none, []⟩
  | some m =>
    let magicLen := asciiStrLen uRootEfivarMagic
    if m.length != magicLen && m.length != magicLen + 1 then ⟨.notFound, none, []⟩
    else if asciiStrnCmp m uRootEfivarMagic magicLen != 0 then ⟨.notFound, none, []⟩
    else
      match fdtGetProperty node "name" with
      | none => ⟨.invalidParameter, none, []⟩
      | some nameProp =>
        -- line 121: TempLen == 0 || (TempLen > 0 && NameStr[TempLen-1] != '\0')
        let needTempName : Bool :=
          nameProp.length == 0 ||
            (decide (0 < nameProp.length) && nameProp.getD (nameProp.length - 1) 0 != 0)
        if needTempName && !alloc 0 then ⟨.outOfResources, none, []⟩
        else
          let tempNameLive : List AllocTag := if needTempName then [.tempName] else []
          let k0 := if needTempName then 1 else 0
          let nameStr := if needTempName then nameProp ++ [0] else nameProp
          if !alloc k0 then
            -- line 135: VariableName allocation failed; TempNameStr freed
            ⟨.outOfResources, none, []⟩
          else
            let nameChars := nameStr.takeWhile (fun c => c != 0)
            match fdtGetProperty node "guid" with
            | none =>
              -- lines 154-161: frees VariableName and TempNameStr
              ⟨.invalidParameter, none, []⟩
            | some g =>
              let needTempGuid := guidNeedsCopy g
              if needTempGuid && !alloc (k0 + 1) then
                -- lines 169-176: frees VariableName and TempNameStr
                ⟨.outOfResources, none, []⟩
              else
                let tempGuidLive : List AllocTag := if needTempGuid then [.tempGuid] else []
                let k1 := if needTempGuid then k0 + 2 else k0 + 1
                match asciiStrToGuid (guidBufFor g junk) with
                | none =>
                  -- lines 183-193: frees VariableName, TempNameStr, TempGuidStr
                  ⟨.invalidParameter, none, []⟩
                | some guidVal =>
                  match fdtGetProperty node "attributes" with
                  | none =>
                    -- lines 197-201: frees ONLY VariableName;
                    -- TempNameStr and TempGuidStr remain allocated
                    ⟨.invalidParameter, none, tempNameLive ++ tempGuidLive⟩
                  | some attrProp =>
                    let attrs := fdt32ToCpu attrProp
                    match fdtGetProperty node "data" with
                    | none =>
                      -- lines 208-212: frees ONLY VariableName;
                      -- TempNameStr and TempGuidStr remain allocated
                      ⟨.invalidParameter, none, tempNameLive ++ tempGuidLive⟩
                    | some dataProp =>
                      if !alloc k1 then
                        -- lines 219-228: frees VariableName, TempNameStr, TempGuidStr
                        ⟨.outOfResources, none, []⟩
                      else
                        -- lines 231-257: record stored, temporaries freed;
                        -- VariableName and VariableData now owned by the record
                        ⟨.success,
                          some ⟨nameChars, guidVal, attrs, dataProp.length, dataProp⟩,
                          [.varName, .varData]⟩

/-- An allocation oracle under which every `AllocatePool` succeeds. -/
def allocAlwaysOk : Nat → Bool := fun _ => true

/-- The magic-property test of the first (counting) pass of
`CacheDeviceTreeVariables` (BlSupportDxe.c lines 298-307): the property is
present, its length is the magic length or that length plus one, and its
content matches the magic string over the magic length. -/
def magicPropMatches (node : FdtNode) : Bool :=
  match fdtGetProperty node "magic" with
  | none => false
  | some m =>
    let magicLen := asciiStrLen uRootEfivarMagic
    (m.length == magicLen || m.length == magicLen + 1) &&
      asciiStrnCmp m uRootEfivarMagic magicLen == 0

/-- First pass of `CacheDeviceTreeVariables` (lines 294-308): count of
nodes whose magic property matches. -/
def countMagicNodes (nodes : List FdtNode) : Nat :=
  (nodes.filter magicPropMatches).length

/-- Second pass of `CacheDeviceTreeVariables` (lines 325-339): walks the
node sequence, breaking as soon as `VariableCount >= MaxVariables`,
decoding each node and appending successful decodes to the cache.
`alloc i` / `junk i` are the per-node allocation and uninitialized-byte
oracles for the node at walk position `i`.  Returns the final
`VariableCount` and the populated cache entries. -/
def secondPassLoop (alloc : Nat → Nat → Bool) (junk : Nat → Nat → Nat) (maxVars : Nat) :
    List FdtNode → Nat → Nat → List CachedVariableData → Nat × List CachedVariableData
  | [], _, count, acc => (count, acc)
  | node :: rest, i, count, acc =>
    if maxVars ≤ count then (count, acc)
    else
      let r := parseAndCacheEfiVariableNode (alloc i) (junk i) node
      if r.status == .success then
        secondPassLoop alloc junk maxVars rest (i + 1) (count + 1) (acc ++ r.cached.toList)
      else
        secondPassLoop alloc junk maxVars rest (i + 1) count acc

/-- Resulting module state of `CacheDeviceTreeVariables`: its returned
status, the globals `mCachedVariables` (NULL modelled as `none`) and
`mCachedVariableCount`, and how many nodes the first (counting) pass
visited. -/
structure CacheResult where
  status : EfiStatus
  cachedVariables : Option (List CachedVariableData)
  cachedVariableCount : Nat
  visitedFirstPass : Nat
deriving DecidableEq

/-- `CacheDeviceTreeVariables` (BlSupportDxe.c lines 269-345).
`cacheAllocOk` is the outcome of the `AllocateZeroPool` call for the cache
array. -/
def cacheDeviceTreeVariables (alloc : Nat → Nat → Bool) (junk : Nat → Nat → Nat)
    (cacheAllocOk : Bool) (fdt : Option Fdt) : CacheResult :=
  match fdt with
  | none => ⟨.invalidParameter, none, 0, 0⟩
  | some f =>
    -- line 287: FdtCheckHeader must pass before any node is visited
    if !f.headerOk then ⟨.invalidParameter, none, 0, 0⟩
    else
      let k := countMagicNodes f.nodes
      if k == 0 then ⟨.success, none, 0, f.nodes.length⟩
      else if !cacheAllocOk then ⟨.outOfResources, none, 0, f.nodes.length⟩
      else
        let r := secondPassLoop alloc junk k f.nodes 0 0 []
        ⟨.success, some r.2, r.1, f.nodes.length⟩

/-- One entry of the persistent variable store, keyed by (guid, name). -/
structure VarStoreEntry where
  guid : List Nat
  name : List Nat
  attributes : Nat
  data : List Nat
deriving DecidableEq

/-- The persistent variable store outside this driver. -/
def VarStore : Type := List VarStoreEntry

instance : DecidableEq VarStore := by
  unfold VarStore
  infer_instance

/-- Modelled from the spec: the persistent variable store's
`get(guid, name) -> (attributes, size, data)` contract (spec section 6);
the store implementation is not part of the sources under review.  Returns
the attributes and data of the existing variable, or nothing when no
variable with that (guid, name) identity exists. -/
def getVariable (st : VarStore) (name : List Nat) (guid : List Nat) :
    Option (Nat × List Nat) :=
  (st.find? (fun e => e.guid == guid && e.name == name)).map
    (fun e => (e.attributes, e.data))

/-- Modelled from the spec: the persistent variable store's
`set(guid, name, attributes, size, data) -> outcome` contract (spec
sections 4.3 and 6).  A set with zero attributes or zero length removes
the variable (the delete form the installer uses); otherwise the variable
is (re)written.  The outcome is success. -/
def setVariable (st : VarStore) (name : List Nat) (guid : List Nat)
    (attributes : Nat) (dataSize : Nat) (data : List Nat) : VarStore × Bool :=
  let rest := st.filter (fun e => !(e.guid == guid && e.name == name))
  if attributes == 0 || dataSize == 0 then (rest, true)
  else (rest ++ [⟨guid, name, attributes, data⟩], true)

/-- One `gRT->SetVariable` call as issued by the installer, in argument
order (name, guid, attributes, dataSize, data). -/
structure VarCall where
  name : List Nat
  guid : List Nat
  attributes : Nat
  dataSize : Nat
  data : List Nat
deriving DecidableEq

/-- `EFI_VARIABLE_APPEND_WRITE` is bit 6 (0x40); the code masks it out of
the incoming attributes with `& ~EFI_VARIABLE_APPEND_WRITE`, i.e. a 32-bit
AND with 0xFFFFFFBF. -/
def notAppendWriteMask : Nat := 0xFFFFFFBF

/-- Body of the restore loop of `OnExitBootServices` for one cached record
(BlSupportDxe.c lines 383-449): query the store, delete first when the
incoming attributes are non-zero and differ (after masking the
append-write bit) from the existing attributes (the delete's own outcome
is discarded), then set the record.  Returns the updated store, the
`SetVariable` calls issued, and the final set call's success. -/
def restoreOne (st : VarStore) (v : CachedVariableData) :
    VarStore × List VarCall × Bool :=
  let afterGet :=
    match getVariable st v.variableName v.variableGuid with
    | some (exAttrs, _) =>
      if v.attributes != 0 && (v.attributes &&& notAppendWriteMask) != exAttrs then
        let d := setVariable st v.variableName v.variableGuid 0 0 []
        (d.1, [(⟨v.variableName, v.variableGuid, 0, 0, []⟩ : VarCall)])
      else (st, [])
    | none => (st, [])
  let final := setVariable afterGet.1 v.variableName v.variableGuid
    v.attributes v.dataSize v.data
  (final.1,
    afterGet.2 ++ [⟨v.variableName, v.variableGuid, v.attributes, v.dataSize, v.data⟩],
    final.2)

/-- The restore loop of `OnExitBootServices` over all cached records:
threads the store, accumulates the issued calls, and counts successful
final sets (`SuccessCount`). -/
def restoreLoop : List CachedVariableData → VarStore → List VarCall → Nat →
    VarStore × List VarCall × Nat
  | [], st, calls, succ => (st, calls, succ)
  | v :: rest, st, calls, succ =>
    let r := restoreOne st v
    restoreLoop rest r.1 (calls ++ r.2.1) (if r.2.2 then succ + 1 else succ)

/-- The module state `OnExitBootServices` reads and writes: the
`mVariableRestoreDone` latch, the cached-record globals, the persistent
store, whether the ExitBootServices event registration is still open, and
the cumulative count of successfully installed records. -/
structure World where
  variableRestoreDone : Bool
  cachedVariables : Option (List CachedVariableData)
  store : VarStore
  eventOpen : Bool
  successCount : Nat
deriving DecidableEq

/-- `OnExitBootServices` (BlSupportDxe.c lines 355-458): the one-shot
boot-phase gate.  Returns the new module state and the `SetVariable`
calls issued by this firing. -/
def onExitBootServices (w : World) : World × List VarCall :=
  if w.variableRestoreDone then (w, [])
  else
    let emptyCache :=
      match w.cachedVariables with
      | none => true
      | some l => l.isEmpty
    if emptyCache then
      ({ w with variableRestoreDone := true, eventOpen := false }, [])
    else
      let l := w.cachedVariables.getD []
      let r := restoreLoop l w.store [] 0
      ({ w with
          store := r.1
          variableRestoreDone := true
          eventOpen := false
          successCount := w.successCount + r.2.2 }, r.2.1)

/-- `BlDxeEntryPoint` (BlSupportDxe.c lines 470-557), restricted to the
behaviour under review: invoke `CacheDeviceTreeVariables` when a device
tree was handed off (discarding its status — migration is best-effort),
then register the ExitBootServices event, whose creation status is the
`createEventStatus` parameter.  Returns the entry point's status and the
resulting cache state. -/
def blDxeEntryPoint (alloc : Nat → Nat → Bool) (junk : Nat → Nat → Nat)
    (cacheAllocOk : Bool) (fdt : Option Fdt) (createEventStatus : EfiStatus) :
    EfiStatus × CacheResult :=
  let cr :=
    match fdt with
    | some f => cacheDeviceTreeVariables alloc junk cacheAllocOk (some f)
    | none => ⟨.success, none, 0, 0⟩
  if efiError createEventStatus then (createEventStatus, cr)
  else (.success, cr)

/-- `EFI_HOB_RESOURCE_DESCRIPTOR`, reduced to the fields
`BlUpdateMemoryMap` consumes.  `EFI_RESOURCE_SYSTEM_MEMORY = 0`,
`EFI_RESOURCE_MEMORY_MAPPED_IO = 1`. -/
structure ResourceDescriptor where
  resourceType : Nat
  physicalStart : Nat
  resourceLength : Nat
deriving DecidableEq

/-- The ARM memory-region classifications used by the builder. -/
inductive ArmRegionAttribute where
  | writeBack
  | device
  | uncachedUnbuffered
deriving DecidableEq

/-- `ARM_MEMORY_REGION_DESCRIPTOR`. -/
structure ArmMemoryRegionDescriptor where
  physicalBase : Nat
  virtualBase : Nat
  length : Nat
  attributes : ArmRegionAttribute
deriving DecidableEq

/-- `EFI_PAGE_SIZE`. -/
def efiPageSize : Nat := 4096

/-- `ALIGN_VALUE (Value, Alignment)` on UINT64 for a power-of-two
alignment: `(Value + (Alignment - 1)) & ~(Alignment - 1)`, with the
addition wrapping modulo 2^64. -/
def alignValue (v a : Nat) : Nat :=
  (((v + (a - 1)) % 2 ^ 64) / a) * a

/-- `MAX_DESCRIPTORS` (AArch64/BlSupport.c line 21): the capacity of the
`VirtualMemoryTable` array. -/
def maxDescriptors : Nat := 256

/-- The region entry the loop body of `BlUpdateMemoryMap` builds from one
resource descriptor (AArch64/BlSupport.c lines 96-106). -/
def regionForResource (r : ResourceDescriptor) : ArmMemoryRegionDescriptor :=
  { physicalBase := r.physicalStart
    virtualBase := r.physicalStart
    length := alignValue r.resourceLength efiPageSize
    attributes :=
      if r.resourceType = 0 then .writeBack
      else if r.resourceType = 1 then .device
      else .uncachedUnbuffered }

/-- The synthetic final entry (AArch64/BlSupport.c lines 112-115). -/
def syntheticRegion : ArmMemoryRegionDescriptor :=
  ⟨0x4000000, 0x4000000, 0x100000, .device⟩

/-- The resource-descriptor loop of `BlUpdateMemoryMap` (lines 91-110),
under DEBUG-build `ASSERT` semantics: each iteration stores an entry at
`VirtualMemoryTable[Idx]`, increments `Idx`, then asserts
`Idx <= MAX_DESCRIPTORS`; the first failing assert halts (but only after
the store of that iteration has happened).  Returns the sequence of
(index, entry) stores, the final `Idx`, and whether an assert failed. -/
def blUpdateLoop : List ResourceDescriptor → Nat →
    List (Nat × ArmMemoryRegionDescriptor) →
    List (Nat × ArmMemoryRegionDescriptor) × Nat × Bool
  | [], idx, ws => (ws, idx, false)
  | r :: rest, idx, ws =>
    let ws1 := ws ++ [(idx, regionForResource r)]
    if idx + 1 ≤ maxDescriptors then blUpdateLoop rest (idx + 1) ws1
    else (ws1, idx + 1, true)

/-- `BlUpdateMemoryMap` (AArch64/BlSupport.c lines 76-121) up to the
hand-off to `ArmConfigureMmu`: the stores into `VirtualMemoryTable`
performed for a given resource-descriptor sequence, and whether an
`ASSERT` fired.  After the loop the synthetic entry is stored at
`VirtualMemoryTable[Idx]` with no capacity check. -/
def blUpdateMemoryMapWrites (rs : List ResourceDescriptor) :
    List (Nat × ArmMemoryRegionDescriptor) × Bool :=
  let r := blUpdateLoop rs 0 []
  if r.2.2 then (r.1, true)
  else (r.1 ++ [(r.2.1, syntheticRegion)], false)

/-- One region transform as the spec words it (spec sections 3 and 4.5):
base = physical start, virtual base = physical base, length = upstream
length rounded up to the page size, classification by descriptor type
(system memory = normal-cacheable write-back, memory-mapped I/O = device,
anything else = uncached-unbuffered). -/
def specRegionOfDescriptor (r : ResourceDescriptor) : ArmMemoryRegionDescriptor :=
  { physicalBase := r.physicalStart
    virtualBase := r.physicalStart
    length := ((r.resourceLength + (efiPageSize - 1)) / efiPageSize) * efiPageSize
    attributes :=
      if r.resourceType = 0 then .writeBack
      else if r.resourceType = 1 then .device
      else .uncachedUnbuffered }

/-! Helper lemmas -/

lemma onExitBootServices_restoreDone (w : World) :
    ((onExitBootServices w).1).variableRestoreDone = true := by
  unfold onExitBootServices
  by_cases h : w.variableRestoreDone = true
  · simp [h]
  · simp only [h]
    simp only [Bool.false_eq_true, if_false]
    split <;> rfl

lemma onExitBootServices_of_done (w : World) (h : w.variableRestoreDone = true) :
    onExitBootServices w = (w, []) := by
  unfold onExitBootServices
  simp [h]

/-! Example inputs used by concrete theorems -/

/-- The 36-character GUID text "12345678-1234-1234-1234-123456789abc" as
ASCII byte values. -/
def exampleGuidText : List Nat :=
  [49, 50, 51, 52, 53, 54, 55, 56, 45, 49, 50, 51, 52, 45, 49, 50, 51, 52, 45,
   49, 50, 51, 52, 45, 49, 50, 51, 52, 53, 54, 55, 56, 57, 97, 98, 99]

/-- A node with a matching magic property, a name property lacking its
terminator (so a `TempNameStr` copy is allocated), a valid GUID property,
and no "attributes" property. -/
def missingAttributesNode : FdtNode :=
  ⟨[("magic", uRootEfivarMagic), ("name", [65]), ("guid", exampleGuidText),
    ("data", [1])]⟩

/-- A resource descriptor of a type that is neither system memory nor
memory-mapped I/O. -/
def reservedDescriptor : ResourceDescriptor := ⟨5, 0, 4096⟩

/-- 257 resource descriptors: one more than the table capacity. -/
def overrunSequence : List ResourceDescriptor := List.replicate 257 reservedDescriptor

/-- Exactly 256 resource descriptors: as many as the table capacity. -/
def atCapacitySequence : List ResourceDescriptor := List.replicate 256 reservedDescriptor

/-! Claim theorems -/

set_option maxRecDepth 4000 in
/-- C2 (code bug exhibit): with 257 resource descriptors the builder does
NOT stop before writing past the capacity: the trace contains a store at
index 256 (= `MAX_DESCRIPTORS`, one past the last valid index), issued
before the `ASSERT (Idx <= MAX_DESCRIPTORS)` fails; and with exactly 256
descriptors no assert fires at all, yet the unconditional synthetic final
entry is stored at the out-of-bounds index 256. -/
theorem blUpdateMemoryMap_writes_past_capacity :
    (((blUpdateMemoryMapWrites overrunSequence).1.map Prod.fst).contains
        maxDescriptors = true ∧
      (blUpdateMemoryMapWrites overrunSequence).2 = true) ∧
    (((blUpdateMemoryMapWrites atCapacitySequence).1.map Prod.fst).contains
        maxDescriptors = true ∧
      (blUpdateMemoryMapWrites atCapacitySequence).2 = false) := by
  decide

/-- C3 (code bug exhibit): on the Invalid-Record exit for a missing
"attributes" property, the extractor returns with the synthesized
NUL-terminated name copy (`TempNameStr`) still allocated: the code at
BlSupportDxe.c lines 197-201 frees only `VariableName`, so an allocation
made for the node remains live after an Invalid-Record return. -/
theorem parse_leaks_tempName_on_missing_attributes :
    parseAndCacheEfiVariableNode allocAlwaysOk (fun _ => 0) missingAttributesNode =
      ⟨.invalidParameter, none, [AllocTag.tempName]⟩ := by
  decide

/-- C6: the boot-phase gate is idempotent.  After any firing the
`mVariableRestoreDone` latch is set, so a second invocation of the
ExitBootServices callback returns immediately as a no-op: it changes no
state, issues no `SetVariable` call, and the cumulative installed-record
count after two firings equals the count after the first. -/
theorem exitBootServices_gate_idempotent (w : World) :
    onExitBootServices ((onExitBootServices w).1) = ((onExitBootServices w).1, []) ∧
    (onExitBootServices ((onExitBootServices w).1)).2 = [] ∧
    ((onExitBootServices ((onExitBootServices w).1)).1).successCount =
      ((onExitBootServices w).1).successCount := by
  have h := onExitBootServices_of_done _ (onExitBootServices_restoreDone w)
  exact ⟨h, by rw [h], by rw [h]⟩

/-- C10: for a "guid" property span of reported length exactly 36, the
guarded read of byte 36 — the byte the copy decision at BlSupportDxe.c
line 166 inspects — is out of range (`none`), and for every span of
length at least 36 the copy decision is exactly the test of that
(defaulted) read, so the out-of-range branch of the read decides the
outcome. -/
theorem guidCopyDecision_reads_out_of_range (g : List Nat) (h : g.length = 36) :
    propByteAt g 36 = none ∧
    guidNeedsCopy g = ((propByteAt g 36).getD 0 != 0) := by
  constructor
  · unfold propByteAt
    exact List.get?_eq_none.mpr (by omega)
  · unfold guidNeedsCopy
    simp [h]

/-- Witness for C10 at a concrete 36-byte span. -/
theorem guidCopyDecision_reads_out_of_range_witness :
    (List.replicate 36 48).length = 36 ∧
    (propByteAt (List.replicate 36 48) 36 = none ∧
      guidNeedsCopy (List.replicate 36 48) =
        ((propByteAt (List.replicate 36 48) 36).getD 0 != 0)) :=
  ⟨by decide, guidCopyDecision_reads_out_of_range _ (by decide)⟩

lemma secondPassLoop_bound (alloc : Nat → Nat → Bool) (junk : Nat → Nat → Nat)
    (maxVars : Nat) (nodes : List FdtNode) :
    ∀ (i count : Nat) (acc : List CachedVariableData),
      count ≤ maxVars → acc.length ≤ count →
      (secondPassLoop alloc junk maxVars nodes i count acc).1 ≤ maxVars ∧
      (secondPassLoop alloc junk maxVars nodes i count acc).2.length ≤
        (secondPassLoop alloc junk maxVars nodes i count acc).1 := by
  induction nodes with
  | nil =>
    intro i count acc h1 h2
    exact ⟨by simpa [secondPassLoop] using h1, by simpa [secondPassLoop] using h2⟩
  | cons node rest ih =>
    intro i count acc h1 h2
    rw [secondPassLoop]
    by_cases hb : maxVars ≤ count
    · simpa [hb] using ⟨h1, h2⟩
    · simp only [if_neg hb]
      split
      · refine ih (i + 1) (count + 1) _ (by omega) ?_
        have hopt :
            (parseAndCacheEfiVariableNode (alloc i) (junk i) node).cached.toList.length ≤ 1 := by
          cases (parseAndCacheEfiVariableNode (alloc i) (junk i) node).cached <;> simp
        rw [List.length_append]
        omega
      · exact ih (i + 1) count acc h1 h2

/-- A per-node allocation oracle under which every `AllocatePool`
succeeds. -/
def allocAlwaysOk2 : Nat → Nat → Bool := fun _ _ => true

/-- A per-node uninitialized-pool-byte oracle reading 0 everywhere. -/
def junkZero2 : Nat → Nat → Nat := fun _ _ => 0

/-- A device-tree blob whose structural header check fails. -/
def badHeaderFdt : Fdt := ⟨false, [⟨[("magic", uRootEfivarMagic)]⟩]⟩

/-- A device-tree blob with a valid header and one node without any magic
property. -/
def noMagicFdt : Fdt := ⟨true, [⟨[("compatible", [97, 0])]⟩]⟩

/-- C1: for every cached record being installed, when a variable with the
same (guid, name) exists in the store, the installer issues a delete (a
set call with zero attributes and zero length) followed by the set of the
incoming (guid, name, attributes, data) exactly when the incoming
attributes are non-zero and, after masking the append-write bit, differ
from the existing attributes; otherwise only the set is issued. -/
theorem installer_delete_then_set (st : VarStore) (v : CachedVariableData)
    (exAttrs : Nat) (exData : List Nat)
    (hex : getVariable st v.variableName v.variableGuid = some (exAttrs, exData)) :
    (restoreOne st v).2.1 =
      if v.attributes ≠ 0 ∧ (v.attributes &&& notAppendWriteMask) ≠ exAttrs then
        [⟨v.variableName, v.variableGuid, 0, 0, []⟩,
         ⟨v.variableName, v.variableGuid, v.attributes, v.dataSize, v.data⟩]
      else
        [⟨v.variableName, v.variableGuid, v.attributes, v.dataSize, v.data⟩] := by
  unfold restoreOne
  rw [hex]
  by_cases hc : v.attributes ≠ 0 ∧ (v.attributes &&& notAppendWriteMask) ≠ exAttrs
  · have hb : (v.attributes != 0 && (v.attributes &&& notAppendWriteMask) != exAttrs) = true := by
      simp only [Bool.and_eq_true, bne_iff_ne, ne_eq]
      exact hc
    simp [hb, hc]
  · have hb : (v.attributes != 0 && (v.attributes &&& notAppendWriteMask) != exAttrs) = false := by
      simp only [Bool.and_eq_true, bne_iff_ne, ne_eq, Bool.not_eq_true] at hc ⊢
      by_contra hcon
      rw [Bool.not_eq_false, Bool.and_eq_true] at hcon
      exact hc ⟨by simpa using hcon.1, by simpa using hcon.2⟩
    simp [hb, hc]

/-- A store holding one variable under the witness record's identity with
attributes 5. -/
def witnessStore : VarStore := [⟨[7], [65], 5, [1]⟩]

/-- An incoming record for the same (guid, name) with attributes 1. -/
def witnessRecord : CachedVariableData := ⟨[65], [7], 1, 1, [9]⟩

/-- Witness for C1: the existing variable has attributes 5, the incoming
record attributes 1, so a delete-then-set sequence is issued. -/
theorem installer_delete_then_set_witness :
    getVariable witnessStore witnessRecord.variableName witnessRecord.variableGuid =
      some (5, [1]) ∧
    (restoreOne witnessStore witnessRecord).2.1 =
      (if witnessRecord.attributes ≠ 0 ∧
          (witnessRecord.attributes &&& notAppendWriteMask) ≠ 5 then
        [⟨witnessRecord.variableName, witnessRecord.variableGuid, 0, 0, []⟩,
         ⟨witnessRecord.variableName, witnessRecord.variableGuid,
          witnessRecord.attributes, witnessRecord.dataSize, witnessRecord.data⟩]
      else
        [⟨witnessRecord.variableName, witnessRecord.variableGuid,
          witnessRecord.attributes, witnessRecord.dataSize, witnessRecord.data⟩]) :=
  ⟨by decide, installer_delete_then_set witnessStore witnessRecord 5 [1] (by decide)⟩

/-- C7: the populated cache is bounded by the count of the first pass at
every point.  For any bound K computed by the counting pass over one node
sequence, the populating loop run over any prefix of any (possibly
different) node sequence never drives its count or its populated-entry
list beyond K; and the migration's final cached-variable count is bounded
by the counting pass over its own nodes. -/
theorem cache_bound_invariant (alloc : Nat → Nat → Bool) (junk : Nat → Nat → Nat)
    (nodes1 nodes2 : List FdtNode) (i : Nat) (b : Bool) (f : Fdt) :
    ((secondPassLoop alloc junk (countMagicNodes nodes1) (nodes2.take i) 0 0 []).1 ≤
        countMagicNodes nodes1 ∧
      (secondPassLoop alloc junk (countMagicNodes nodes1) (nodes2.take i) 0 0 []).2.length ≤
        countMagicNodes nodes1) ∧
    (cacheDeviceTreeVariables alloc junk b (some f)).cachedVariableCount ≤
      countMagicNodes f.nodes := by
  constructor
  · have h := secondPassLoop_bound alloc junk (countMagicNodes nodes1) (nodes2.take i)
      0 0 [] (Nat.zero_le _) (by simp)
    exact ⟨h.1, le_trans h.2 h.1⟩
  · unfold cacheDeviceTreeVariables
    cases hh : f.headerOk
    · simp [hh]
    · by_cases hk : countMagicNodes f.nodes = 0
      · simp [hh, hk]
      · cases b
        · simp [hh, hk]
        · simp only [hh, hk, Bool.not_true, Bool.false_eq_true, if_false, beq_iff_eq,
            if_neg hk, Bool.not_false, if_true]
          exact (secondPassLoop_bound alloc junk (countMagicNodes f.nodes) f.nodes
            0 0 [] (Nat.zero_le _) (by simp)).1

/-- C8: a tree blob whose structural header check fails aborts the
migration with Invalid-Parameter before any node is visited and caches
nothing, while the driver entry point (which discards the migration
status) still completes successfully. -/
theorem migration_aborts_on_bad_header (alloc : Nat → Nat → Bool)
    (junk : Nat → Nat → Nat) (b : Bool) (f : Fdt) (h : f.headerOk = false) :
    cacheDeviceTreeVariables alloc junk b (some f) =
      ⟨.invalidParameter, none, 0, 0⟩ ∧
    blDxeEntryPoint alloc junk b (some f) .success =
      (.success, ⟨.invalidParameter, none, 0, 0⟩) := by
  have h1 : cacheDeviceTreeVariables alloc junk b (some f) =
      ⟨.invalidParameter, none, 0, 0⟩ := by
    unfold cacheDeviceTreeVariables
    simp [h]
  refine ⟨h1, ?_⟩
  simp [blDxeEntryPoint, efiError, h1]

/-- Witness for C8 at a concrete bad-header blob. -/
theorem migration_aborts_on_bad_header_witness :
    badHeaderFdt.headerOk = false ∧
    (cacheDeviceTreeVariables allocAlwaysOk2 junkZero2 true (some badHeaderFdt) =
        ⟨.invalidParameter, none, 0, 0⟩ ∧
      blDxeEntryPoint allocAlwaysOk2 junkZero2 true (some badHeaderFdt) .success =
        (.success, ⟨.invalidParameter, none, 0, 0⟩)) :=
  ⟨rfl, migration_aborts_on_bad_header allocAlwaysOk2 junkZero2 true badHeaderFdt rfl⟩

/-- C9: a tree blob with a valid header and zero magic-tagged nodes
migrates with overall success and nothing cached (the counting pass still
visits every node), and the gate firing with no cached variables issues no
set call, marks the gate fired, and closes the event. -/
theorem migration_zero_magic_nodes (alloc : Nat → Nat → Bool)
    (junk : Nat → Nat → Nat) (b : Bool) (f : Fdt) (st : VarStore)
    (h1 : f.headerOk = true) (h2 : ∀ n ∈ f.nodes, magicPropMatches n = false) :
    cacheDeviceTreeVariables alloc junk b (some f) =
      ⟨.success, none, 0, f.nodes.length⟩ ∧
    onExitBootServices ⟨false, none, st, true, 0⟩ =
      (⟨true, none, st, false, 0⟩, []) := by
  have hk : countMagicNodes f.nodes = 0 := by
    unfold countMagicNodes
    rw [List.length_eq_zero, List.filter_eq_nil_iff]
    intro a ha
    simp [h2 a ha]
  constructor
  · unfold cacheDeviceTreeVariables
    simp [h1, hk]
  · rfl

/-- Witness for C9 at a concrete blob with one non-magic node. -/
theorem migration_zero_magic_nodes_witness :
    (noMagicFdt.headerOk = true ∧
      ∀ n ∈ noMagicFdt.nodes, magicPropMatches n = false) ∧
    (cacheDeviceTreeVariables allocAlwaysOk2 junkZero2 true (some noMagicFdt) =
        ⟨.success, none, 0, noMagicFdt.nodes.length⟩ ∧
      onExitBootServices ⟨false, none, [], true, 0⟩ =
        (⟨true, none, [], false, 0⟩, [])) :=
  ⟨⟨rfl, by decide⟩,
    migration_zero_magic_nodes allocAlwaysOk2 junkZero2 true noMagicFdt [] rfl (by decide)⟩

lemma blUpdateLoop_no_overflow (rs : List ResourceDescriptor) :
    ∀ (idx : Nat) (ws : List (Nat × ArmMemoryRegionDescriptor)),
      idx + rs.length ≤ maxDescriptors →
      blUpdateLoop rs idx ws =
        (ws ++ (List.range' idx rs.length).zip (rs.map regionForResource),
         idx + rs.length, false) := by
  induction rs with
  | nil =>
    intro idx ws h
    simp [blUpdateLoop]
  | cons r rest ih =>
    intro idx ws h
    rw [blUpdateLoop]
    have hle : idx + 1 ≤ maxDescriptors := by
      simp only [List.length_cons] at h
      omega
    rw [if_pos hle, ih (idx + 1) _ (by simp only [List.length_cons] at h ⊢; omega)]
    simp only [List.length_cons, List.map_cons, List.range'_succ, List.zip_cons_cons,
      List.append_assoc, List.singleton_append]
    have harith : idx + 1 + rest.length = idx + (rest.length + 1) := by omega
    rw [harith]

/-- C5: for every resource-descriptor sequence whose table (including the
synthetic final entry) fits the capacity, and whose lengths do not
overflow the 64-bit page-alignment computation, the builder stores, in
delivery order, one entry per descriptor at indices 0..N-1 — with
physical base the descriptor's physical start, virtual base equal to the
physical base, length rounded up to the page size, and classification by
descriptor type — followed by exactly one synthetic entry (base 0x4000000,
length 0x100000, device classification) at index N, with no assert
failing. -/
theorem memory_map_table_layout (rs : List ResourceDescriptor)
    (hcap : rs.length ≤ 255)
    (hlen : ∀ r ∈ rs, r.resourceLength + (efiPageSize - 1) < 2 ^ 64) :
    blUpdateMemoryMapWrites rs =
      ((List.range rs.length).zip (rs.map specRegionOfDescriptor) ++
        [(rs.length, syntheticRegion)], false) := by
  have h1 := blUpdateLoop_no_overflow rs 0 []
    (by unfold maxDescriptors; omega)
  have hmap : rs.map regionForResource = rs.map specRegionOfDescriptor := by
    refine List.map_congr_left (fun r hr => ?_)
    unfold regionForResource specRegionOfDescriptor alignValue
    rw [Nat.mod_eq_of_lt (hlen r hr)]
  unfold blUpdateMemoryMapWrites
  rw [h1]
  simp only [hmap, Nat.zero_add, List.nil_append, List.range_eq_range',
    Bool.false_eq_true, if_false]

/-- The three-descriptor example of the spec (system memory, MMIO,
reserved), with lengths needing upward page alignment. -/
def exampleDescriptors : List ResourceDescriptor :=
  [⟨0, 0, 5⟩, ⟨1, 4096, 4096⟩, ⟨5, 8192, 0⟩]

/-- Witness for C5 at the three-descriptor example. -/
theorem memory_map_table_layout_witness :
    (exampleDescriptors.length ≤ 255 ∧
      ∀ r ∈ exampleDescriptors, r.resourceLength + (efiPageSize - 1) < 2 ^ 64) ∧
    blUpdateMemoryMapWrites exampleDescriptors =
      ((List.range exampleDescriptors.length).zip
          (exampleDescriptors.map specRegionOfDescriptor) ++
        [(exampleDescriptors.length, syntheticRegion)], false) :=
  ⟨⟨by decide, by decide⟩,
    memory_map_table_layout exampleDescriptors (by decide) (by decide)⟩


lemma asciiStrnCmp_eq_zero_iff :
    ∀ (n : Nat) (a b : List Nat), (∀ x ∈ b.take n, x ≠ 0) →
      n ≤ a.length → n ≤ b.length →
      (asciiStrnCmp a b n = 0 ↔ a.take n = b.take n) := by
  intro n
  induction n with
  | zero => intro a b _ _ _; simp [asciiStrnCmp]
  | succ k ih =>
    intro a b hb ha hbl
    match a, b with
    | x :: xs, y :: ys =>
      have hy : y ≠ 0 := hb y (by simp)
      simp only [asciiStrnCmp, List.headD_cons, List.tail_cons]
      by_cases hcond : x ≠ 0 ∧ x = y ∧ k ≠ 0
      · rw [if_pos hcond]
        rw [ih xs ys
          (fun z hz => hb z (by rw [List.take_succ_cons]; exact List.mem_cons_of_mem _ hz))
          (by simpa using ha) (by simpa using hbl)]
        simp [List.take_succ_cons, hcond.2.1]
      · rw [if_neg hcond]
        by_cases hxy : x = y
        · have hk : k = 0 := by
            by_contra hk0
            exact hcond ⟨by rw [hxy]; exact hy, hxy, hk0⟩
          subst hk
          subst hxy
          simp
        · have hne : (↑x - ↑y : Int) ≠ 0 := by
            intro hc
            exact hxy (by exact_mod_cast sub_eq_zero.mp hc)
          simp [hne, List.take_succ_cons, hxy]

/-- The spec's magic-tag condition, in the spec's words: the node has a
"magic" property whose raw length equals the magic string's length or that
length plus one, and whose content matches the magic string over the magic
length. -/
def specMagicOk (node : FdtNode) : Prop :=
  ∃ m, fdtGetProperty node "magic" = some m ∧
    (m.length = uRootEfivarMagic.length ∨ m.length = uRootEfivarMagic.length + 1) ∧
    m.take uRootEfivarMagic.length = uRootEfivarMagic

/-- One of the four mandatory properties "name", "guid", "attributes",
"data" is absent. -/
def specMissingMandatoryProp (node : FdtNode) : Prop :=
  fdtGetProperty node "name" = none ∨ fdtGetProperty node "guid" = none ∨
    fdtGetProperty node "attributes" = none ∨ fdtGetProperty node "data" = none

/-- The node's GUID text (after the extractor's normalization) fails the
textual-to-binary GUID conversion. -/
def specGuidConversionFails (node : FdtNode) (junk : Nat → Nat) : Prop :=
  ∃ g, fdtGetProperty node "guid" = some g ∧ asciiStrToGuid (guidBufFor g junk) = none

/-- C4: with all allocations succeeding, the extractor returns Not-Found
exactly when the magic property is absent, has a raw length other than the
magic length or that length plus one, or differs from the magic string
over the magic length; and it returns Invalid-Record exactly when the
magic check passed but one of the "name", "guid", "attributes", "data"
properties is missing or the 36-character textual GUID fails conversion to
binary form. -/
theorem extractor_status_classification (node : FdtNode) (junk : Nat → Nat) :
    ((parseAndCacheEfiVariableNode allocAlwaysOk junk node).status = .notFound ↔
      ¬ specMagicOk node) ∧
    ((parseAndCacheEfiVariableNode allocAlwaysOk junk node).status = .invalidParameter ↔
      specMagicOk node ∧
        (specMissingMandatoryProp node ∨ specGuidConversionFails node junk)) := by
  have hul : uRootEfivarMagic.length = 16 := by decide
  have hsl : asciiStrLen uRootEfivarMagic = 16 := by decide
  cases hm : fdtGetProperty node "magic" with
  | none =>
    constructor
    · simp [parseAndCacheEfiVariableNode, hm, specMagicOk]
    · simp [parseAndCacheEfiVariableNode, hm, specMagicOk]
  | some m =>
    have hspec : specMagicOk node ↔
        ((m.length = 16 ∨ m.length = 17) ∧ m.take 16 = uRootEfivarMagic) := by
      simp [specMagicOk, hm, hul]
    by_cases hlen : m.length = 16 ∨ m.length = 17
    · have hg1 : (m.length != 16 && m.length != 17) = false := by
        rcases hlen with h | h <;> simp [h]
      have hcmp := asciiStrnCmp_eq_zero_iff 16 m uRootEfivarMagic
        (by decide) (by rcases hlen with h | h <;> omega) (by decide)
      have htake : List.take 16 uRootEfivarMagic = uRootEfivarMagic := by decide
      rw [htake] at hcmp
      by_cases hcontent : m.take 16 = uRootEfivarMagic
      · have hcmpv : asciiStrnCmp m uRootEfivarMagic 16 = 0 := hcmp.mpr hcontent
        have hok : specMagicOk node := hspec.mpr ⟨hlen, hcontent⟩
        cases hn : fdtGetProperty node "name" with
        | none =>
          constructor
          · simp [parseAndCacheEfiVariableNode, hm, hsl, hg1, hcmpv, hn, hok]
          · simp [parseAndCacheEfiVariableNode, hm, hsl, hg1, hcmpv, hn, hok,
              specMissingMandatoryProp]
        | some nameProp =>
          cases hg : fdtGetProperty node "guid" with
          | none =>
            constructor
            · simp [parseAndCacheEfiVariableNode, hm, hsl, hg1, hcmpv, hn, hg,
                allocAlwaysOk, hok]
            · simp [parseAndCacheEfiVariableNode, hm, hsl, hg1, hcmpv, hn, hg,
                allocAlwaysOk, hok, specMissingMandatoryProp]
          | some g =>
            cases hconv : asciiStrToGuid (guidBufFor g junk) with
            | none =>
              constructor
              · simp [parseAndCacheEfiVariableNode, hm, hsl, hg1, hcmpv, hn, hg, hconv,
                  allocAlwaysOk, hok]
              · simp [parseAndCacheEfiVariableNode, hm, hsl, hg1, hcmpv, hn, hg, hconv,
                  allocAlwaysOk, hok, specGuidConversionFails]
            | some gv =>
              cases ha : fdtGetProperty node "attributes" with
              | none =>
                constructor
                · simp [parseAndCacheEfiVariableNode, hm, hsl, hg1, hcmpv, hn, hg, hconv,
                    ha, allocAlwaysOk, hok]
                · simp [parseAndCacheEfiVariableNode, hm, hsl, hg1, hcmpv, hn, hg, hconv,
                    ha, allocAlwaysOk, hok, specMissingMandatoryProp]
              | some attrProp =>
                cases hd : fdtGetProperty node "data" with
                | none =>
                  constructor
                  · simp [parseAndCacheEfiVariableNode, hm, hsl, hg1, hcmpv, hn, hg, hconv,
                      ha, hd, allocAlwaysOk, hok]
                  · simp [parseAndCacheEfiVariableNode, hm, hsl, hg1, hcmpv, hn, hg, hconv,
                      ha, hd, allocAlwaysOk, hok, specMissingMandatoryProp]
                | some dataProp =>
                  constructor
                  · simp [parseAndCacheEfiVariableNode, hm, hsl, hg1, hcmpv, hn, hg, hconv,
                      ha, hd, allocAlwaysOk, hok]
                  · simp [parseAndCacheEfiVariableNode, hm, hsl, hg1, hcmpv, hn, hg, hconv,
                      ha, hd, allocAlwaysOk, hok, specMissingMandatoryProp,
                      specGuidConversionFails]
      · have hcmpv : ¬ asciiStrnCmp m uRootEfivarMagic 16 = 0 := fun hc => hcontent (hcmp.mp hc)
        constructor
        · simp [parseAndCacheEfiVariableNode, hm, hsl, hg1, bne_iff_ne, hcmpv, hspec, hcontent]
        · simp [parseAndCacheEfiVariableNode, hm, hsl, hg1, bne_iff_ne, hcmpv, hspec, hcontent]
    · have hg1 : (m.length != 16 && m.length != 17) = true := by
        rw [Bool.and_eq_true, bne_iff_ne, bne_iff_ne]
        push_neg at hlen
        exact ⟨hlen.1, hlen.2⟩
      constructor
      · simp [parseAndCacheEfiVariableNode, hm, hsl, hg1, hspec, hlen]
      · simp [parseAndCacheEfiVariableNode, hm, hsl, hg1, hspec, hlen]

end BlSupportDxe
